import Mathlib

/-!
Verification development for the garlic Onionoo client library.

The definitions below are a shallow embedding of `src/garlic/client.py`
(cache, retry loop, status dispatch, parameter sanitisation) and
`src/garlic/types.py` (exit policies, graph histories).

Modelling conventions:
* Python values that can appear as request arguments and cache-key
  components are modelled by the first-order type `PyVal`; Python tuples
  and dicts are cons-encoded (`consv`/`nilv`, `dictCons`/`dictNil`) so
  that all functions are structurally recursive and kernel-computable.
* Keyword-argument mappings (`**kwargs`) are insertion-ordered
  association lists (`KwArgs`), matching Python dict iteration order.
* `datetime.utcnow()` is modelled by the `now` field of the explicit
  state `St`; time is a natural number of seconds.
* The HTTP transport is an external collaborator; it is modelled as a
  function from (invocation index, whether the request carries an
  If-Modified-Since header) to a response, plus an invocation counter in
  the state.  Response bodies are opaque natural-number identifiers.
* Raised exceptions are modelled with `Except`; Python's in-order
  mutation of shared state is explicit state passing.
* An event log (`Ev`) is ghost instrumentation recording transport
  invocations, lookup results and revalidation spans; no modelled
  function reads it.
-/

namespace Garlic

/-- The relay-flag enumeration of `garlic.types.Flag`. -/
inductive Flag where
  | exitf
  | guard
  | fast
  | stable
  | v2dir
  | hsdir
  | running
  | valid
deriving DecidableEq

/-- The `.value` wire string of each `Flag` member (`garlic/types.py`). -/
def Flag.value : Flag → String
  | .exitf => "Exit"
  | .guard => "Guard"
  | .fast => "Fast"
  | .stable => "Stable"
  | .v2dir => "V2Dir"
  | .hsdir => "HSDir"
  | .running => "Running"
  | .valid => "Valid"

/-- Python values appearing as request arguments and cache-key
components.  Tuples are `consv` chains ending in `nilv`; dicts are
`dictCons` chains ending in `dictNil` (insertion ordered, as in
Python). -/
inductive PyVal where
  | str (s : String)
  | int (n : Int)
  | flagv (f : Flag)
  | nilv
  | consv (hd tl : PyVal)
  | dictNil
  | dictCons (key : String) (val rest : PyVal)
deriving DecidableEq

/-- Build a cons-encoded Python tuple from a Lean list. -/
def pyTup : List PyVal → PyVal
  | [] => .nilv
  | v :: rest => .consv v (pyTup rest)

/-- Keyword arguments: an insertion-ordered association list, the model
of a `**kwargs` dict. -/
abbrev KwArgs := List (String × PyVal)

/-- Build a cons-encoded Python dict value from an association list. -/
def pyDict : KwArgs → PyVal
  | [] => .dictNil
  | (k, v) :: rest => .dictCons k v (pyDict rest)

/-- The `isinstance(value, dict)` test used by `tuplise`. -/
def PyVal.isDict : PyVal → Bool
  | .dictNil => true
  | .dictCons .. => true
  | _ => false

/-- Membership test for a key of a dict-encoded value (used for the
`headers` dict passed to the transport). -/
def dict_has_key : PyVal → String → Bool
  | .dictCons k _ rest, key => if k = key then true else dict_has_key rest key
  | _, _ => false

/-- The recursive `tuplise(value)` call of `Cache.gen_key` applied to a
nested mapping value.  For a dict-valued entry the source does
`items.extend((key, tuple(tuplise(value))))`, appending the key string
and the flattened tuple as two separate items; for any other value it
appends the single pair `(key, value)`. -/
def tuplise_dict : PyVal → List PyVal
  | .dictCons k v rest =>
    (if v.isDict then [.str k, pyTup (tuplise_dict v)] else [pyTup [.str k, v]])
      ++ tuplise_dict rest
  | _ => []

/-- The top-level `tuplise(kwargs)` loop of `Cache.gen_key`, iterating
the keyword mapping in insertion order. -/
def tuplise : KwArgs → List PyVal
  | [] => []
  | (k, v) :: rest =>
    (if v.isDict then [.str k, pyTup (tuplise_dict v)] else [pyTup [.str k, v]])
      ++ tuplise rest

/-- The contribution of a single keyword item to `tuplise`'s output. -/
def kw_item (p : String × PyVal) : List PyVal :=
  if p.2.isDict then [.str p.1, pyTup (tuplise_dict p.2)] else [pyTup [.str p.1, p.2]]

/-- `Cache.gen_key`: `cache_key = [*args]; cache_key.extend(tuplise(kwargs));
return tuple(cache_key)` (`garlic/client.py`). -/
def Cache.gen_key (args : List PyVal) (kwargs : KwArgs) : PyVal :=
  pyTup (args ++ tuplise kwargs)

/-- The list of components of a generated key (inverse of `pyTup` on
chain-encoded tuples). -/
def key_components : PyVal → List PyVal
  | .consv hd tl => hd :: key_components tl
  | _ => []

/-- Decidable equality of `Except` results (for evaluating the embedded
fallible functions on concrete inputs). -/
def exceptDecEq {ε α : Type} [DecidableEq ε] [DecidableEq α] :
    (a b : Except ε α) → Decidable (a = b)
  | .error e1, .error e2 => decidable_of_iff (e1 = e2) (by simp)
  | .error _, .ok _ => .isFalse (by simp)
  | .ok _, .error _ => .isFalse (by simp)
  | .ok a, .ok b => decidable_of_iff (a = b) (by simp)

instance {ε α : Type} [DecidableEq ε] [DecidableEq α] : DecidableEq (Except ε α) :=
  exceptDecEq

/-- Python exceptions and error outcomes raised by the embedded code. -/
inductive PyErr where
  | typeError
  | valueError
  | indexError
  | badRequest (body : ℕ)
  | notFound (body : ℕ)
  | internalServerError (body : ℕ)
  | serviceUnavailable (body : ℕ)
  | httpError (code body : ℕ)
  | maxRetriesExceeded
  | outOfFuel
deriving DecidableEq

/-- `kwargs[key]` lookup on the association-list model of a dict. -/
def get_kw : KwArgs → String → Option PyVal
  | [], _ => none
  | (k, v) :: rest, key => if k = key then some v else get_kw rest key

/-- `kwargs[key] = v` assignment: replaces in place when the key exists
(preserving dict insertion order), otherwise appends. -/
def set_kw : KwArgs → String → PyVal → KwArgs
  | [], key, v => [(key, v)]
  | (k, w) :: rest, key, v =>
    if k = key then (key, v) :: rest else (k, w) :: set_kw rest key v

/-- `",".join(value)` over a tuple of strings.  Returns `none` (a
`TypeError`) when the value is not a tuple whose items are all strings;
this abstracts Python's broader iterable semantics, which never arise
for the documented `Tuple[str]` option values. -/
def join_strs : PyVal → Option (List String)
  | .nilv => some []
  | .consv (.str s) rest => (join_strs rest).map (s :: ·)
  | _ => none

/-- The `sanitise`/`wraps` body of the `onionoo_parameterised` decorator
(`garlic/client.py`): reject restricted keyword arguments, then run the
`if "order" ... elif "fields" ... elif "flag"` serialisation chain. -/
def onionoo_parameterised (restrict : List String) (kwargs : KwArgs) : Except PyErr KwArgs :=
  if kwargs.any (fun p => restrict.contains p.1) then .error .typeError
  else
    match get_kw kwargs "order" with
    | some v =>
      match join_strs v with
      | some parts => .ok (set_kw kwargs "order" (.str (String.intercalate "," parts)))
      | none => .error .typeError
    | none =>
      match get_kw kwargs "fields" with
      | some v =>
        match join_strs v with
        | some parts => .ok (set_kw kwargs "fields" (.str (String.intercalate "," parts)))
        | none => .error .typeError
      | none =>
        match get_kw kwargs "flag" with
        | some (.flagv f) => .ok (set_kw kwargs "flag" (.str f.value))
        | some _ => .error .typeError
        | none => .ok kwargs

/-- `entry.split("-")` at character level (kernel-computable model of
`str.split` with a one-character separator). -/
def split_dash_chars : List Char → List (List Char)
  | [] => [[]]
  | '-' :: rest => [] :: split_dash_chars rest
  | c :: rest =>
    match split_dash_chars rest with
    | [] => [[c]]
    | g :: gs => (c :: g) :: gs

/-- Value of a decimal digit character. -/
def digit_val (c : Char) : Option ℕ :=
  if c.isDigit then some (c.toNat - 48) else none

/-- Accumulating decimal parse of a digit string. -/
def parse_nat_go (acc : ℕ) : List Char → Option ℕ
  | [] => some acc
  | c :: rest =>
    match digit_val c with
    | some d => parse_nat_go (acc * 10 + d) rest
    | none => none

/-- `int(chunk)`: decimal integer conversion with an optional sign;
`none` models the `ValueError` raised on a malformed literal. -/
def py_int_chars : List Char → Option ℤ
  | [] => none
  | '-' :: rest => if rest = [] then none else (parse_nat_go 0 rest).map (fun n => -(n : ℤ))
  | l => (parse_nat_go 0 l).map (fun n => (n : ℤ))

/-- `[int(chunk) for chunk in entry.split("-") if chunk]` of
`ExitPolicy.from_json._parse_policy` (`garlic/types.py`). -/
def parse_entry_chunks (entry : String) : Option (List ℤ) :=
  ((split_dash_chars entry.data).filter (· ≠ [])).mapM py_int_chars

/-- The per-entry port set of `_parse_policy`: a singleton chunk list is
added as one port, an empty chunk list hits `chunks[0]` (`IndexError`),
and two or more chunks produce `range(chunks[0], chunks[1])`. -/
def entry_port_set : List ℤ → Except PyErr (Finset ℤ)
  | [c] => .ok {c}
  | [] => .error .indexError
  | c0 :: c1 :: _ => .ok (Finset.Ico c0 c1)

/-- `_parse_policy(policy)`: accumulate every entry's ports into one
set, propagating the first parse failure. -/
def parse_policy : List String → Except PyErr (Finset ℤ)
  | [] => .ok ∅
  | entry :: rest =>
    match parse_entry_chunks entry with
    | none => .error .valueError
    | some chunks =>
      match entry_port_set chunks with
      | .error e => .error e
      | .ok s =>
        match parse_policy rest with
        | .error e => .error e
        | .ok srest => .ok (s ∪ srest)

/-- `garlic.types.ExitPolicy`: accepted and rejected port sets.  The
second field keeps the source's (misspelt) attribute name. -/
structure ExitPolicy where
  accept_policy : Finset ℤ
  reject_poilcy : Finset ℤ
deriving DecidableEq

/-- `ExitPolicy.from_json`: the walrus-guarded `json.get` is truthy only
for a present, non-empty array, so a missing or empty side stays `None`
and `__init__` replaces it with the empty set. -/
def ExitPolicy.from_json (accept reject : Option (List String)) : Except PyErr ExitPolicy :=
  match (match accept with
         | some (e :: es) => parse_policy (e :: es)
         | _ => .ok ∅) with
  | .error e => .error e
  | .ok ap =>
    match (match reject with
           | some (e :: es) => parse_policy (e :: es)
           | _ => .ok ∅) with
    | .error e => .error e
    | .ok rp => .ok ⟨ap, rp⟩

/-- `garlic.types.GraphHistory`.  Timestamps are abstract naturals,
normalised samples are `Option ℚ` (`none` models a JSON null), the
denormalisation factor is rational. -/
structure GraphHistory where
  first : ℕ
  last : ℕ
  interval : ℤ
  factor : ℚ
  values : List (Option ℚ)
  count : Option ℤ
deriving DecidableEq

/-- `[value * self.factor for value in self.values]`: multiplies each
sample by the factor in order, raising `TypeError` at the first null
sample (`None * float` in Python). -/
def denormalise_values (factor : ℚ) : List (Option ℚ) → Except PyErr (List ℚ)
  | [] => .ok []
  | none :: _ => .error .typeError
  | some v :: rest =>
    match denormalise_values factor rest with
    | .ok tl => .ok (v * factor :: tl)
    | .error e => .error e

/-- `GraphHistory.denormalise`: replace `values` in place with the
denormalised samples. -/
def GraphHistory.denormalise (h : GraphHistory) : Except PyErr GraphHistory :=
  match denormalise_values h.factor h.values with
  | .ok vs => .ok { h with values := vs.map some }
  | .error e => .error e

/-- Client configuration (`Client.__init__` parameters plus the cache
TTL handed to `Cache.__init__`). -/
structure Config where
  max_retries : ℕ
  timeout : ℕ
  enable_cache : Bool
  ttl : ℕ
deriving DecidableEq

/-- The defaults of `Client.__init__`. -/
def defaultConfig : Config := ⟨5, 60, false, 3600⟩

/-- A cached or returned API value: a `PartialRawResponse` decoded from
a 200 body, or a `ContentNotChanged` wrapper around a raw 304 transport
response.  Bodies are opaque identifiers. -/
inductive CVal where
  | raw (body : ℕ)
  | cnc (body : ℕ)
deriving DecidableEq

/-- A transport outcome: `asks.errors.RequestTimeout`, or a response
with a status code and body. -/
inductive TResp where
  | timeout
  | status (code body : ℕ)
deriving DecidableEq

/-- The transport stub: maps (invocation index, whether the request
carries an If-Modified-Since header) to an outcome. -/
abbrev Transport := ℕ → Bool → TResp

/-- Ghost events: a transport invocation, a `Cache.lookup` return (with
whether it returned a non-`None` entry), and entry/exit of
`Cache.check_entry_lifetime`. -/
inductive Ev where
  | transportCall
  | lookupRet (hit : Bool)
  | revalStart
  | revalEnd
deriving DecidableEq

/-- The mutable state threaded through the client: the cache mapping
(key ↦ (value, stored timestamp)), the `_nested_call` guard, the current
time, the transport invocation counter, and the ghost event log. -/
structure St where
  cache : List (PyVal × CVal × ℕ)
  nested : Bool
  now : ℕ
  calls : ℕ
  log : List Ev
deriving DecidableEq

/-- Append a ghost event. -/
def addEv (e : Ev) (st : St) : St := { st with log := st.log ++ [e] }

/-- `self._cache.get(key, (None, None))`. -/
def cache_get : List (PyVal × CVal × ℕ) → PyVal → Option (CVal × ℕ)
  | [], _ => none
  | (k, v, ts) :: rest, key => if k = key then some (v, ts) else cache_get rest key

/-- `self._cache[key] = entry`: dict assignment, replacing in place when
the key exists and appending otherwise. -/
def cache_set : List (PyVal × CVal × ℕ) → PyVal → CVal × ℕ → List (PyVal × CVal × ℕ)
  | [], key, e => [(key, e.1, e.2)]
  | (k, v, ts) :: rest, key, e =>
    if k = key then (key, e.1, e.2) :: rest else (k, v, ts) :: cache_set rest key e

/-- `timestamp.strftime(utils.UTC_FORMAT)`: an injective stand-in for
the fixed wire timestamp format (the claims under proof never inspect
the format itself). -/
def fmtIMS (ts : ℕ) : String := toString ts

/-- `Cache.update`: no-op when caching is disabled, otherwise store
`(value, utcnow() + ttl)` under the key.  Note the source stores
`utcnow() + ttl`, not the retrieval time, as the second component. -/
def Cache.update (cfg : Config) (key : PyVal) (value : CVal) (st : St) : St :=
  if cfg.enable_cache then
    { st with cache := cache_set st.cache key (value, st.now + cfg.ttl) }
  else st

/-- The `http_handlers` dispatch of `Client._request`: 200 and 304 map
to values that are returned (and cached); every other status builds an
exception that is raised immediately (`HTTPError` is the default for
unlisted statuses). -/
def http_handlers : ℕ → ℕ → Except PyErr CVal
  | 200, body => .ok (.raw body)
  | 304, body => .ok (.cnc body)
  | 400, body => .error (.badRequest body)
  | 404, body => .error (.notFound body)
  | 500, body => .error (.internalServerError body)
  | 503, body => .error (.serviceUnavailable body)
  | code, body => .error (.httpError code body)

/-- The type of `self._factory` stored in the `Cache`: a fetch taking
positional args, keyword args and the state. -/
abbrev Factory := List PyVal → KwArgs → St → Except PyErr CVal × St

/-- The `for retry in range(self._max_retries)` loop of
`Client._request`: a timeout consumes one attempt and continues; any
response is dispatched through `http_handlers`, with successful values
stored in the cache before being returned and exception values raised;
falling off the loop raises `HTTPError("maximum retries exceeded")`. -/
def Client.retryLoop (tr : Transport) (cfg : Config) (key : PyVal) (cond : Bool) :
    ℕ → St → Except PyErr CVal × St
  | 0, st => (.error .maxRetriesExceeded, st)
  | n + 1, st =>
    let resp := tr st.calls cond
    let st1 := addEv .transportCall { st with calls := st.calls + 1 }
    match resp with
    | .timeout => Client.retryLoop tr cfg key cond n st1
    | .status code body =>
      match http_handlers code body with
      | .ok v => (.ok v, Cache.update cfg key v st1)
      | .error e => (.error e, st1)

/-- `Cache.check_entry_lifetime`: reissue the request with an
If-Modified-Since header carrying the stored timestamp; on
`ContentNotChanged` issue a second, unconditional repeat; store the
result under the original key and return it.  Passing `headers=` when
`kwargs` already binds it would be a Python `TypeError`. -/
def Cache.check_entry_lifetime (factory : Factory) (cfg : Config) (key : PyVal)
    (args : List PyVal) (kwargs : KwArgs) (ts : ℕ) (st : St) : Except PyErr CVal × St :=
  if (get_kw kwargs "headers").isSome then (.error .typeError, st)
  else
    match factory args
        (kwargs ++ [("headers", pyDict [("If-Modified-Since", .str (fmtIMS ts))])])
        (addEv .revalStart st) with
    | (.error e, st1) => (.error e, st1)
    | (.ok value, st1) =>
      match value with
      | .cnc _ =>
        match factory args kwargs st1 with
        | (.error e, st2) => (.error e, st2)
        | (.ok value2, st2) => (.ok value2, addEv .revalEnd (Cache.update cfg key value2 st2))
      | _ => (.ok value, addEv .revalEnd (Cache.update cfg key value st1))

/-- `Cache.lookup`: `None` when caching is disabled or the nested-call
guard is up; `None` on a missing key; the stored entry when present,
after `check_entry_lifetime` refreshes it if
`timestamp + ttl < utcnow()`. -/
def Cache.lookup (factory : Factory) (cfg : Config)
    (args : List PyVal) (kwargs : KwArgs) (st : St) : Except PyErr (Option CVal) × St :=
  if ¬cfg.enable_cache ∨ st.nested then (.ok none, addEv (.lookupRet false) st)
  else
    let key := Cache.gen_key args kwargs
    match cache_get st.cache key with
    | none => (.ok none, addEv (.lookupRet false) st)
    | some (entry, ts) =>
      if ts + cfg.ttl < st.now then
        match Cache.check_entry_lifetime factory cfg key args kwargs ts st with
        | (.error e, st1) => (.error e, st1)
        | (.ok v, st1) => (.ok (some v), addEv (.lookupRet true) st1)
      else (.ok (some entry), addEv (.lookupRet true) st)

/-- `Client._request` with a structural fuel bound on the nesting depth
of revalidation sub-fetches (the source has no such bound; fuel
exhaustion is reported as the distinguished `outOfFuel` error).  The
body consults `Cache.lookup` (whose factory is this same fetch, as
wired in `Client.__init__`), returns a non-`None` entry directly, and
otherwise pops `headers` from the keyword arguments and enters the
retry loop; the cache key used for the update inside the loop is
computed from the keyword arguments after the pop. -/
def Client.request (cfg : Config) (tr : Transport) :
    ℕ → List PyVal → KwArgs → St → Except PyErr CVal × St
  | 0, _, _, st => (.error .outOfFuel, st)
  | fuel + 1, args, kwargs, st =>
    match Cache.lookup (Client.request cfg tr fuel) cfg args kwargs st with
    | (.error e, st1) => (.error e, st1)
    | (.ok (some entry), st1) => (.ok entry, st1)
    | (.ok none, st1) =>
      let headers := get_kw kwargs "headers"
      let kwargs1 := kwargs.filter (fun p => p.1 ≠ "headers")
      let cond := match headers with
        | some h => dict_has_key h "If-Modified-Since"
        | none => false
      Client.retryLoop tr cfg (Cache.gen_key args kwargs1) cond cfg.max_retries st1

/-- Scan the ghost log with a revalidation depth counter: `true` when
some `Cache.lookup` returned a non-`None` entry strictly inside a
revalidation span. -/
def hit_in_reval : List Ev → ℕ → Bool
  | [], _ => false
  | .revalStart :: rest, d => hit_in_reval rest (d + 1)
  | .revalEnd :: rest, d => hit_in_reval rest (d - 1)
  | .lookupRet true :: rest, d => if 0 < d then true else hit_in_reval rest d
  | _ :: rest, d => hit_in_reval rest d

/-! Concrete scenarios used to settle the cache claims. -/

/-- Cache-enabled configuration with a 10-second TTL. -/
def cfgC : Config := ⟨5, 60, true, 10⟩

/-- Positional arguments of the probed request: verb and URL. -/
def argsC : List PyVal := [.str "GET", .str "u"]

/-- The canonical key of the probed request (no keyword arguments). -/
def keyC : PyVal := Cache.gen_key argsC []

/-- Transport stub for the revalidation scenario: every request carrying
an If-Modified-Since header is answered 304 Not Modified (body 1), every
unconditional request with a fresh 200 payload (body 2). -/
def trReval : Transport := fun _ cond => if cond then .status 304 1 else .status 200 2

/-- Initial state for the revalidation scenario: the cache holds a stale
entry for `keyC` (stored timestamp 50, so 50 + 10 < 100 = now). -/
def stReval : St := ⟨[(keyC, .raw 0, 50)], false, 100, 0, []⟩

/-- The stale-entry lookup of the revalidation scenario, as executed by
`Client._request`. -/
def runReval : Except PyErr CVal × St := Client.request cfgC trReval 10 argsC [] stReval

/-- Transport stub for the freshness scenario: first invocation returns
a 200 with body 5, later ones a 200 with body 6. -/
def trFresh : Transport := fun i _ => if i = 0 then .status 200 5 else .status 200 6

/-- The initial fetch of the freshness scenario, at time 0 on an empty
cache. -/
def runFetch : Except PyErr CVal × St := Client.request cfgC trFresh 10 argsC [] ⟨[], false, 0, 0, []⟩

/-- A repeat of the same request at time `t`, starting from the state
left by `runFetch` (with a cleared ghost log). -/
def runLookupAt (t : ℕ) : Except PyErr CVal × St :=
  Client.request cfgC trFresh 10 argsC [] { runFetch.2 with now := t, log := [] }

/-- A history with a non-zero sample and denormalisation factor 0. -/
def c9zero : GraphHistory := ⟨0, 0, 0, 0, [some 5], none⟩

/-- `c9zero` after one (and equally after two) denormalisations. -/
def c9zero1 : GraphHistory := ⟨0, 0, 0, 0, [some 0], none⟩

/-! Helper lemmas. -/

theorem tuplise_cons (p : String × PyVal) (l : KwArgs) :
    tuplise (p :: l) = kw_item p ++ tuplise l := by
  cases p with
  | mk k v => rfl

theorem tuplise_perm {kw1 kw2 : KwArgs} (h : kw1.Perm kw2) :
    (tuplise kw1).Perm (tuplise kw2) := by
  induction h with
  | nil => exact List.Perm.refl _
  | cons x _ ih =>
    rw [tuplise_cons, tuplise_cons]
    exact List.Perm.append_left _ ih
  | swap x y l =>
    rw [tuplise_cons, tuplise_cons, tuplise_cons, tuplise_cons,
      ← List.append_assoc, ← List.append_assoc]
    exact List.Perm.append_right _ List.perm_append_comm
  | trans _ _ ih1 ih2 => exact ih1.trans ih2

theorem key_components_pyTup : ∀ l : List PyVal, key_components (pyTup l) = l
  | [] => rfl
  | v :: rest => by rw [pyTup, key_components, key_components_pyTup rest]

theorem key_components_gen_key (args : List PyVal) (kwargs : KwArgs) :
    key_components (Cache.gen_key args kwargs) = args ++ tuplise kwargs := by
  rw [Cache.gen_key, key_components_pyTup]

theorem get_kw_set_kw (key k2 : String) (v : PyVal) (hne : key ≠ k2) :
    ∀ kw : KwArgs, get_kw (set_kw kw key v) k2 = get_kw kw k2 := by
  intro kw
  induction kw with
  | nil => simp [set_kw, get_kw, hne]
  | cons p rest ih =>
    cases p with
    | mk k w =>
      by_cases hk : k = key
      · subst hk
        simp [set_kw, get_kw, hne]
      · by_cases hk2 : k = k2 <;> simp [set_kw, get_kw, hk, hk2, ih, Ne.symm hne]

/-! Claim theorems. -/

/-- C4, counterexample: the key-canonicalisation routine iterates the
keyword mapping in insertion order, so the two calls of the claim
produce distinct keys. -/
theorem C4_counterexample :
    Cache.gen_key [.str "GET", .str "u"]
        [("fields", pyTup [.str "a", .str "b"]), ("offset", .int 1)] ≠
      Cache.gen_key [.str "GET", .str "u"]
        [("offset", .int 1), ("fields", pyTup [.str "a", .str "b"])] := by
  decide

/-- C4, amended: two calls of `Cache.gen_key` whose keyword mappings
hold the same items in different insertion orders produce keys whose
component sequences are permutations of each other, but the keys
themselves are in general unequal (equal keys are guaranteed only for
equal insertion order). -/
theorem C4_gen_key_perm (args : List PyVal) (kw1 kw2 : KwArgs) (h : kw1.Perm kw2) :
    (key_components (Cache.gen_key args kw1)).Perm (key_components (Cache.gen_key args kw2)) := by
  rw [key_components_gen_key, key_components_gen_key]
  exact List.Perm.append_left _ (tuplise_perm h)

/-- Witness for C4's amended theorem at the claim's concrete call. -/
theorem C4_gen_key_perm_witness :
    ([("fields", pyTup [.str "a", .str "b"]), ("offset", PyVal.int 1)] : KwArgs).Perm
        [("offset", PyVal.int 1), ("fields", pyTup [.str "a", .str "b"])] ∧
      (key_components (Cache.gen_key [.str "GET", .str "u"]
          [("fields", pyTup [.str "a", .str "b"]), ("offset", PyVal.int 1)])).Perm
        (key_components (Cache.gen_key [.str "GET", .str "u"]
          [("offset", PyVal.int 1), ("fields", pyTup [.str "a", .str "b"])])) :=
  have hp : ([("fields", pyTup [.str "a", .str "b"]), ("offset", PyVal.int 1)] : KwArgs).Perm
      [("offset", PyVal.int 1), ("fields", pyTup [.str "a", .str "b"])] :=
    List.Perm.swap _ _ _
  ⟨hp, C4_gen_key_perm _ _ _ hp⟩

/-- C7, counterexample: with `order`, `fields` and `flag` all supplied,
the `if/elif` chain serialises only `order`; `fields` is left as a raw
tuple and `flag` as a raw enumeration member. -/
theorem C7_counterexample :
    onionoo_parameterised []
        [("order", pyTup [.str "a"]), ("fields", pyTup [.str "b", .str "c"]),
          ("flag", .flagv .exitf)] =
      .ok [("order", .str "a"), ("fields", pyTup [.str "b", .str "c"]),
        ("flag", .flagv .exitf)] ∧
      pyTup [.str "b", .str "c"] ≠ PyVal.str "b,c" ∧
      PyVal.flagv .exitf ≠ PyVal.str "Exit" := by
  refine ⟨rfl, by decide, by decide⟩

/-- C7, amended: the decorator serialises at most one of the three
special options per call, chosen by the precedence
`order` over `fields` over `flag`; whichever is chosen is serialised as
the claim states (comma-joined list, or enumeration wire string), and
serialisation touches no other keyword argument. -/
theorem C7_serialisation (restrict : List String) (kwargs : KwArgs)
    (hres : kwargs.any (fun p => restrict.contains p.1) = false) :
    (∀ v parts, get_kw kwargs "order" = some v → join_strs v = some parts →
      onionoo_parameterised restrict kwargs =
        .ok (set_kw kwargs "order" (.str (String.intercalate "," parts)))) ∧
    (∀ v parts, get_kw kwargs "order" = none → get_kw kwargs "fields" = some v →
      join_strs v = some parts →
      onionoo_parameterised restrict kwargs =
        .ok (set_kw kwargs "fields" (.str (String.intercalate "," parts)))) ∧
    (∀ f, get_kw kwargs "order" = none → get_kw kwargs "fields" = none →
      get_kw kwargs "flag" = some (.flagv f) →
      onionoo_parameterised restrict kwargs = .ok (set_kw kwargs "flag" (.str f.value))) ∧
    (∀ key v k2, key ≠ k2 → get_kw (set_kw kwargs key v) k2 = get_kw kwargs k2) := by
  refine ⟨?_, ?_, ?_, ?_⟩
  · intro v parts ho hj
    simp only [onionoo_parameterised, hres, Bool.false_eq_true, if_false, ho, hj]
  · intro v parts ho hf hj
    simp only [onionoo_parameterised, hres, Bool.false_eq_true, if_false, ho, hf, hj]
  · intro f ho hf hfl
    simp only [onionoo_parameterised, hres, Bool.false_eq_true, if_false, ho, hf, hfl]
  · intro key v k2 hne
    exact get_kw_set_kw key k2 v hne kwargs

/-- Witness for C7's amended theorem: a call supplying `fields` (as the
highest-precedence option present) and `flag` together serialises
`fields` and leaves `flag` untouched. -/
theorem C7_serialisation_witness :
    onionoo_parameterised []
        [("fields", pyTup [.str "b", .str "c"]), ("flag", .flagv .exitf)] =
      .ok [("fields", .str "b,c"), ("flag", .flagv .exitf)] :=
  (C7_serialisation [] [("fields", pyTup [.str "b", .str "c"]), ("flag", .flagv .exitf)]
      rfl).2.1 (pyTup [.str "b", .str "c"]) ["b", "c"] rfl rfl rfl

/-- C8: the exit-policy decoder expands the claim's accept array to the
half-open port set, a singleton chunk to a single port and a two-chunk
range to `Finset.Ico`, and a missing or empty accept or reject array
yields an empty set for that side (the summary itself is still built). -/
theorem C8_exit_policy :
    ExitPolicy.from_json (some ["80", "443", "1000-1002"]) (some []) =
        .ok ⟨{80, 443, 1000, 1001}, ∅⟩ ∧
      (∀ a : ℤ, entry_port_set [a] = .ok {a}) ∧
      (∀ a b : ℤ, entry_port_set [a, b] = .ok (Finset.Ico a b)) ∧
      (∀ a b x : ℤ, x ∈ Finset.Ico a b ↔ a ≤ x ∧ x < b) ∧
      ExitPolicy.from_json none none = .ok ⟨∅, ∅⟩ ∧
      ExitPolicy.from_json (some []) (some []) = .ok ⟨∅, ∅⟩ ∧
      ExitPolicy.from_json none (some ["80"]) = .ok ⟨∅, {80}⟩ := by
  refine ⟨by decide, fun a => rfl, fun a b => rfl, fun a b x => Finset.mem_Ico, rfl, rfl, by decide⟩

theorem denormalise_values_map_some (f : ℚ) :
    ∀ l : List ℚ, denormalise_values f (l.map some) = .ok (l.map (· * f))
  | [] => rfl
  | v :: rest => by
    rw [List.map_cons, denormalise_values, denormalise_values_map_some f rest, List.map_cons]

theorem map_eq_map_mem {α β : Type} {f g : α → β} :
    ∀ {l : List α}, l.map f = l.map g → ∀ a ∈ l, f a = g a := by
  intro l
  induction l with
  | nil => intro _ a ha; cases ha
  | cons x rest ih =>
    intro h a ha
    rw [List.map_cons, List.map_cons] at h
    rcases List.cons_eq_cons.mp h with ⟨hx, hrest⟩
    cases ha with
    | head => exact hx
    | tail _ ha2 => exact ih hrest a ha2

theorem denormalise_values_error_iff (f : ℚ) :
    ∀ l : List (Option ℚ), denormalise_values f l = .error .typeError ↔ none ∈ l := by
  intro l
  induction l with
  | nil => simp [denormalise_values]
  | cons o rest ih =>
    cases o with
    | none => simp [denormalise_values]
    | some v =>
      rw [denormalise_values]
      cases hrest : denormalise_values f rest with
      | ok tl => simp [hrest, ← ih, List.mem_cons]
      | error e =>
        have : (.error e : Except PyErr (List ℚ)) = .error .typeError ↔ none ∈ rest := by
          rw [← hrest]; exact ih
        simp only [List.mem_cons, hrest, this]
        simp

theorem denormalise_values_ok_of_not_mem (f : ℚ) :
    ∀ l : List (Option ℚ), none ∉ l → ∃ vs, denormalise_values f l = .ok vs := by
  intro l
  induction l with
  | nil => exact fun _ => ⟨[], rfl⟩
  | cons o rest ih =>
    intro hn
    cases o with
    | none => exact absurd (List.mem_cons_self _ _) hn
    | some v =>
      obtain ⟨vs, hvs⟩ := ih (fun h => hn (List.mem_cons_of_mem _ h))
      exact ⟨v * f :: vs, by rw [denormalise_values, hvs]⟩

/-- C9, counterexample: with denormalisation factor 0 (which is distinct
from 1) and a non-zero sample, applying `denormalise` a second time
reproduces the result of the first application, so the operation is
idempotent there, contradicting the claimed non-idempotence for every
non-zero-sample series with factor distinct from 1. -/
theorem C9_counterexample :
    some (5 : ℚ) ∈ c9zero.values ∧ (5 : ℚ) ≠ 0 ∧ c9zero.factor ≠ 1 ∧
      c9zero.denormalise = .ok c9zero1 ∧ c9zero1.denormalise = .ok c9zero1 := by
  refine ⟨List.mem_singleton.mpr rfl, by norm_num, by norm_num [c9zero], ?_, ?_⟩
  · show Except.ok (⟨0, 0, 0, 0, [some (5 * 0)], none⟩ : GraphHistory) = .ok c9zero1
    norm_num [c9zero1]
  · show Except.ok (⟨0, 0, 0, 0, [some ((0 : ℚ) * 0)], none⟩ : GraphHistory) = .ok c9zero1
    norm_num [c9zero1]

/-- C9, amended: on an all-numeric series, one application of
`denormalise` multiplies every sample by the factor and a second
application multiplies them by the factor again, yielding the originals
times the squared factor; hence `denormalise` is not idempotent on any
series holding a non-zero sample whose factor is distinct from both 0
and 1. -/
theorem C9_denormalise_double (h : GraphHistory) (l : List ℚ) (hv : h.values = l.map some) :
    ∃ h1 h2, h.denormalise = .ok h1 ∧ h1.denormalise = .ok h2 ∧
      h1.values = (l.map (· * h.factor)).map some ∧
      h2.values = (l.map (fun v => v * h.factor * h.factor)).map some ∧
      (∀ v, v ∈ l → v ≠ 0 → h.factor ≠ 0 → h.factor ≠ 1 → h2.values ≠ h1.values) := by
  refine ⟨{ h with values := (l.map (· * h.factor)).map some },
    { h with values := ((l.map (· * h.factor)).map (· * h.factor)).map some }, ?_, ?_, rfl, ?_, ?_⟩
  · show (match denormalise_values h.factor h.values with
      | .ok vs => Except.ok { h with values := vs.map some }
      | .error e => .error e) = _
    rw [hv, denormalise_values_map_some]
  · show (match denormalise_values h.factor ((l.map (· * h.factor)).map some) with
      | .ok vs => Except.ok { h with values := vs.map some }
      | .error e => .error e) = _
    rw [denormalise_values_map_some]
  · show ((l.map (· * h.factor)).map (· * h.factor)).map some =
      (l.map (fun v => v * h.factor * h.factor)).map some
    simp only [List.map_map]
    rfl
  · intro v hm hv0 hf0 hf1 heq
    have h2 : ((l.map (· * h.factor)).map (· * h.factor)).map some =
        (l.map (· * h.factor)).map some := heq
    simp only [List.map_map] at h2
    have h3 := map_eq_map_mem h2 v hm
    simp only [Function.comp_apply] at h3
    have h4 : v * h.factor * h.factor = v * h.factor := Option.some_injective ℚ h3
    have h5 : h.factor * h.factor = h.factor * 1 := by
      have hv' : v * (h.factor * h.factor) = v * (h.factor * 1) := by
        rw [mul_one, ← mul_assoc]; exact h4
      exact mul_left_cancel₀ hv0 hv'
    exact hf1 (mul_left_cancel₀ hf0 h5)

/-- Witness for C9's amended theorem: the series with factor 2 and
single sample 3 denormalises to 6 and then to 12 = 3 · 2². -/
theorem C9_denormalise_double_witness :
    ∃ h1 h2, (⟨0, 0, 0, 2, [some 3], none⟩ : GraphHistory).denormalise = .ok h1 ∧
      h1.denormalise = .ok h2 ∧ h1.values = [some 6] ∧ h2.values = [some 12] ∧
      h2.values ≠ h1.values := by
  obtain ⟨h1, h2, hd1, hd2, hv1, hv2, hne⟩ :=
    C9_denormalise_double ⟨0, 0, 0, 2, [some 3], none⟩ [3] rfl
  refine ⟨h1, h2, hd1, hd2, ?_, ?_, hne 3 (by decide) (by decide) (by decide) (by decide)⟩
  · rw [hv1]; norm_num
  · rw [hv2]; norm_num

/-- C10: `denormalise` raises a `TypeError` exactly when the series
holds a null sample, and completes successfully otherwise; it is total
only on all-numeric series. -/
theorem C10_null_sample (h : GraphHistory) :
    (h.denormalise = .error .typeError ↔ none ∈ h.values) ∧
      (none ∈ h.values ∨ ∃ h2, h.denormalise = .ok h2) := by
  constructor
  · rw [GraphHistory.denormalise]
    cases hd : denormalise_values h.factor h.values with
    | ok vs =>
      have : ¬none ∈ h.values := by
        intro hm
        rw [(denormalise_values_error_iff h.factor h.values).mpr hm] at hd
        cases hd
      simp [this]
    | error e =>
      have he : (.error e : Except PyErr (List ℚ)) = .error .typeError ↔ none ∈ h.values := by
        rw [← hd]; exact denormalise_values_error_iff h.factor h.values
      simpa using he
  · by_cases hm : none ∈ h.values
    · exact Or.inl hm
    · obtain ⟨vs, hvs⟩ := denormalise_values_ok_of_not_mem h.factor h.values hm
      exact Or.inr ⟨_, by rw [GraphHistory.denormalise, hvs]⟩

theorem addEv_nested (e : Ev) (st : St) : (addEv e st).nested = st.nested := rfl

theorem addEv_calls (e : Ev) (st : St) : (addEv e st).calls = st.calls := rfl

theorem update_nested (cfg : Config) (key : PyVal) (value : CVal) (st : St) :
    (Cache.update cfg key value st).nested = st.nested := by
  unfold Cache.update
  split <;> rfl

theorem update_disabled (cfg : Config) (key : PyVal) (value : CVal) (st : St)
    (hcache : cfg.enable_cache = false) : Cache.update cfg key value st = st := by
  unfold Cache.update
  rw [hcache]
  rfl

theorem lookup_disabled (factory : Factory) (cfg : Config) (args : List PyVal)
    (kwargs : KwArgs) (st : St) (hcache : cfg.enable_cache = false) :
    Cache.lookup factory cfg args kwargs st = (.ok none, addEv (.lookupRet false) st) := by
  unfold Cache.lookup
  simp [hcache]

theorem retryLoop_nested (tr : Transport) (cfg : Config) (key : PyVal) (cond : Bool) :
    ∀ (n : ℕ) (st : St), (Client.retryLoop tr cfg key cond n st).2.nested = st.nested := by
  intro n
  induction n with
  | zero => intro st; rfl
  | succ n ih =>
    intro st
    rw [Client.retryLoop]
    split
    · exact ih _
    · split
      · exact update_nested ..
      · rfl

theorem check_entry_lifetime_nested (factory : Factory) (cfg : Config) (key : PyVal)
    (args : List PyVal) (kwargs : KwArgs) (ts : ℕ) (st : St)
    (hf : ∀ a k s, (factory a k s).2.nested = s.nested) :
    (Cache.check_entry_lifetime factory cfg key args kwargs ts st).2.nested = st.nested := by
  unfold Cache.check_entry_lifetime
  split
  · rfl
  · split
    · rename_i e st1 heq
      have e1 := hf args
        (kwargs ++ [("headers", pyDict [("If-Modified-Since", .str (fmtIMS ts))])])
        (addEv .revalStart st)
      rw [heq] at e1
      exact e1
    · rename_i value st1 heq
      have e1 := hf args
        (kwargs ++ [("headers", pyDict [("If-Modified-Since", .str (fmtIMS ts))])])
        (addEv .revalStart st)
      rw [heq] at e1
      split
      · split
        · rename_i e st2 heq2
          have e2 := hf args kwargs st1
          rw [heq2] at e2
          exact e2.trans e1
        · rename_i value2 st2 heq2
          have e2 := hf args kwargs st1
          rw [heq2] at e2
          rw [addEv_nested, update_nested]
          exact e2.trans e1
      · rw [addEv_nested, update_nested]
        exact e1

theorem lookup_nested (factory : Factory) (cfg : Config) (args : List PyVal)
    (kwargs : KwArgs) (st : St)
    (hf : ∀ a k s, (factory a k s).2.nested = s.nested) :
    (Cache.lookup factory cfg args kwargs st).2.nested = st.nested := by
  simp only [Cache.lookup]
  split
  · rfl
  · split
    · rfl
    · split
      · split
        · rename_i heq
          exact (congrArg (fun p => p.2.nested) heq).symm.trans
            (check_entry_lifetime_nested factory cfg _ args kwargs _ st hf)
        · rename_i heq
          exact (congrArg (fun p => p.2.nested) heq).symm.trans
            (check_entry_lifetime_nested factory cfg _ args kwargs _ st hf)
      · rfl

theorem request_nested (cfg : Config) (tr : Transport) :
    ∀ (fuel : ℕ) (args : List PyVal) (kwargs : KwArgs) (st : St),
      (Client.request cfg tr fuel args kwargs st).2.nested = st.nested := by
  intro fuel
  induction fuel with
  | zero => intro args kwargs st; rfl
  | succ fuel ih =>
    intro args kwargs st
    rw [Client.request]
    split
    · rename_i heq
      have e1 := lookup_nested (Client.request cfg tr fuel) cfg args kwargs st
        (fun a k s => ih a k s)
      rw [heq] at e1
      exact e1
    · rename_i heq
      have e1 := lookup_nested (Client.request cfg tr fuel) cfg args kwargs st
        (fun a k s => ih a k s)
      rw [heq] at e1
      exact e1
    · rename_i heq
      have e1 := lookup_nested (Client.request cfg tr fuel) cfg args kwargs st
        (fun a k s => ih a k s)
      rw [heq] at e1
      exact (retryLoop_nested ..).trans e1

theorem retryLoop_timeout (tr : Transport) (cfg : Config) (key : PyVal) (cond : Bool)
    (htr : ∀ i c, tr i c = .timeout) :
    ∀ (n : ℕ) (st : St), (Client.retryLoop tr cfg key cond n st).1 = .error .maxRetriesExceeded ∧
      (Client.retryLoop tr cfg key cond n st).2.calls = st.calls + n := by
  intro n
  induction n with
  | zero => intro st; exact ⟨rfl, rfl⟩
  | succ n ih =>
    intro st
    rw [Client.retryLoop, htr st.calls cond]
    obtain ⟨hres, hcalls⟩ := ih (addEv .transportCall { st with calls := st.calls + 1 })
    refine ⟨hres, ?_⟩
    rw [hcalls]
    show st.calls + 1 + n = st.calls + (n + 1)
    omega

theorem retryLoop_status (tr : Transport) (cfg : Config) (key : PyVal) (cond : Bool)
    (code body : ℕ) (n : ℕ) (st : St) (htr : tr st.calls cond = .status code body) :
    (∀ e, http_handlers code body = .error e →
      Client.retryLoop tr cfg key cond (n + 1) st =
        (.error e, addEv .transportCall { st with calls := st.calls + 1 })) ∧
    (∀ v, http_handlers code body = .ok v →
      Client.retryLoop tr cfg key cond (n + 1) st =
        (.ok v, Cache.update cfg key v (addEv .transportCall { st with calls := st.calls + 1 }))) := by
  constructor
  · intro e he
    rw [Client.retryLoop, htr]
    simp only [he]
  · intro v hv
    rw [Client.retryLoop, htr]
    simp only [hv]

/-- C1: evaluation of the code at the claim's scenario.  With a stale
entry and the transport stub answering the conditional request 304 and
any unconditional request with a fresh 200, the lookup completes after
exactly one transport invocation (not two) and leaves the
`ContentNotChanged` marker, not the fresh payload, cached under the
original key; the fetch also returns that marker. -/
theorem C1_revalidation_behaviour :
    runReval.1 = .ok (.cnc 1) ∧ runReval.2.calls = 1 ∧ runReval.2.calls ≠ 2 ∧
      cache_get runReval.2.cache keyC = some (.cnc 1, 110) := by
  refine ⟨rfl, rfl, by decide, rfl⟩

/-- C2: the nested-call guard is never set: every operation of the
embedded client—the fetch and the cache lookup it wires in—leaves the
`_nested_call` flag exactly as it found it (the source only ever
initialises it to `False`), and in the revalidation scenario the
follow-up fetch's `lookup` returns a non-`None` entry strictly inside
the revalidation span. -/
theorem C2_nested_guard :
    (∀ (cfg : Config) (tr : Transport) (fuel : ℕ) (args : List PyVal) (kwargs : KwArgs)
      (st : St), (Client.request cfg tr fuel args kwargs st).2.nested = st.nested) ∧
    (∀ (cfg : Config) (tr : Transport) (fuel : ℕ) (args : List PyVal) (kwargs : KwArgs)
      (st : St),
      (Cache.lookup (Client.request cfg tr fuel) cfg args kwargs st).2.nested = st.nested) ∧
    hit_in_reval runReval.2.log 0 = true := by
  refine ⟨fun cfg tr fuel args kwargs st => request_nested cfg tr fuel args kwargs st,
    fun cfg tr fuel args kwargs st => ?_, rfl⟩
  exact lookup_nested (Client.request cfg tr fuel) cfg args kwargs st
    (fun a k s => request_nested cfg tr fuel a k s)

/-- C3: evaluation of the code at the freshness scenario.  After a
successful fetch at time 0 with TTL 10, a lookup at time 15 (and even at
time 20 = T + 2·TTL) still returns the stored value without a transport
invocation; only a lookup at time 21 > T + 2·TTL triggers revalidation.
The stored second component is `retrieval time + TTL` and the staleness
test adds the TTL again, so the effective freshness window is twice the
configured TTL, not the TTL itself. -/
theorem C3_freshness_behaviour :
    runFetch.1 = .ok (.raw 5) ∧ runFetch.2.calls = 1 ∧
      cache_get runFetch.2.cache keyC = some (.raw 5, 10) ∧
      (runLookupAt 15).1 = .ok (.raw 5) ∧ (runLookupAt 15).2.calls = 1 ∧
      (runLookupAt 20).2.calls = 1 ∧
      (runLookupAt 21).1 = .ok (.raw 6) ∧ (runLookupAt 21).2.calls = 2 := by
  exact ⟨rfl, rfl, rfl, rfl, rfl, rfl, rfl, rfl⟩

/-- C5: with a transport stub that times out on every attempt and
caching disabled (the default), a fetch invokes the transport exactly
`max_retries` times and then raises the retry-exhausted error; no
timeout reaches the caller, and the default `max_retries` is 5. -/
theorem C5_retry_bound (fuel : ℕ) (cfg : Config) (tr : Transport) (args : List PyVal)
    (kwargs : KwArgs) (st : St) (htr : ∀ i c, tr i c = .timeout)
    (hcache : cfg.enable_cache = false) :
    (Client.request cfg tr (fuel + 1) args kwargs st).1 = .error .maxRetriesExceeded ∧
      (Client.request cfg tr (fuel + 1) args kwargs st).2.calls = st.calls + cfg.max_retries ∧
      defaultConfig.max_retries = 5 := by
  have hl := lookup_disabled (Client.request cfg tr fuel) cfg args kwargs st hcache
  rw [Client.request, hl]
  obtain ⟨hres, hcalls⟩ := retryLoop_timeout tr cfg
    (Cache.gen_key args (kwargs.filter (fun p => p.1 ≠ "headers")))
    (match get_kw kwargs "headers" with
      | some h => dict_has_key h "If-Modified-Since"
      | none => false) htr cfg.max_retries (addEv (.lookupRet false) st)
  exact ⟨hres, hcalls, rfl⟩

/-- Witness for C5 at the spec's concrete test: `max_retries = 3`, an
always-timing-out transport, three transport invocations, then the
fatal error. -/
theorem C5_retry_bound_witness :
    (Client.request ⟨3, 60, false, 3600⟩ (fun _ _ => .timeout) 1
        [.str "GET", .str "u"] [] ⟨[], false, 0, 0, []⟩).1 = .error .maxRetriesExceeded ∧
      (Client.request ⟨3, 60, false, 3600⟩ (fun _ _ => .timeout) 1
        [.str "GET", .str "u"] [] ⟨[], false, 0, 0, []⟩).2.calls = 0 + 3 ∧
      defaultConfig.max_retries = 5 :=
  C5_retry_bound 0 ⟨3, 60, false, 3600⟩ (fun _ _ => .timeout)
    [.str "GET", .str "u"] [] ⟨[], false, 0, 0, []⟩ (fun _ _ => rfl) rfl

/-- C6: with caching disabled (the default) and a transport stub whose
first response has status `code`, any error produced by the
`http_handlers` mapping is raised on the first attempt with no further
transport invocations; a 304 is not raised but returned as the
content-not-changed value carrying the raw response; and the mapping
sends 400/404/500/503 to their specific error kinds, 304 to the
content-not-changed value and every other non-200 status to the generic
HTTP error. -/
theorem C6_status_mapping :
    (∀ (fuel : ℕ) (cfg : Config) (tr : Transport) (args : List PyVal) (kwargs : KwArgs)
      (st : St) (code body : ℕ) (e : PyErr),
      (∀ i c, tr i c = .status code body) → cfg.enable_cache = false →
      0 < cfg.max_retries → http_handlers code body = .error e →
      (Client.request cfg tr (fuel + 1) args kwargs st).1 = .error e ∧
        (Client.request cfg tr (fuel + 1) args kwargs st).2.calls = st.calls + 1) ∧
    (∀ (fuel : ℕ) (cfg : Config) (tr : Transport) (args : List PyVal) (kwargs : KwArgs)
      (st : St) (body : ℕ),
      (∀ i c, tr i c = .status 304 body) → cfg.enable_cache = false →
      0 < cfg.max_retries →
      (Client.request cfg tr (fuel + 1) args kwargs st).1 = .ok (.cnc body) ∧
        (Client.request cfg tr (fuel + 1) args kwargs st).2.calls = st.calls + 1) ∧
    (∀ body : ℕ, http_handlers 400 body = .error (.badRequest body) ∧
      http_handlers 404 body = .error (.notFound body) ∧
      http_handlers 500 body = .error (.internalServerError body) ∧
      http_handlers 503 body = .error (.serviceUnavailable body) ∧
      http_handlers 304 body = .ok (.cnc body) ∧
      http_handlers 200 body = .ok (.raw body)) ∧
    (∀ code body : ℕ, code ≠ 200 → code ≠ 304 → code ≠ 400 → code ≠ 404 → code ≠ 500 →
      code ≠ 503 → http_handlers code body = .error (.httpError code body)) := by
  have step : ∀ (fuel : ℕ) (cfg : Config) (tr : Transport) (args : List PyVal)
      (kwargs : KwArgs) (st : St), cfg.enable_cache = false →
      Client.request cfg tr (fuel + 1) args kwargs st =
        Client.retryLoop tr cfg (Cache.gen_key args (kwargs.filter (fun p => p.1 ≠ "headers")))
          (match get_kw kwargs "headers" with
            | some h => dict_has_key h "If-Modified-Since"
            | none => false)
          cfg.max_retries (addEv (.lookupRet false) st) := by
    intro fuel cfg tr args kwargs st hcache
    rw [Client.request, lookup_disabled (Client.request cfg tr fuel) cfg args kwargs st hcache]
  refine ⟨?_, ?_, ?_, ?_⟩
  · intro fuel cfg tr args kwargs st code body e htr hcache hpos he
    rw [step fuel cfg tr args kwargs st hcache]
    obtain ⟨m, hm⟩ : ∃ m, cfg.max_retries = m + 1 :=
      ⟨cfg.max_retries - 1, by omega⟩
    rw [hm]
    rw [(retryLoop_status tr cfg _ _ code body m (addEv (.lookupRet false) st)
      (htr _ _)).1 e he]
    exact ⟨rfl, rfl⟩
  · intro fuel cfg tr args kwargs st body htr hcache hpos
    rw [step fuel cfg tr args kwargs st hcache]
    obtain ⟨m, hm⟩ : ∃ m, cfg.max_retries = m + 1 :=
      ⟨cfg.max_retries - 1, by omega⟩
    rw [hm]
    rw [(retryLoop_status tr cfg _ _ 304 body m (addEv (.lookupRet false) st)
      (htr _ _)).2 (.cnc body) rfl]
    rw [update_disabled _ _ _ _ hcache]
    exact ⟨rfl, rfl⟩
  · intro body
    exact ⟨rfl, rfl, rfl, rfl, rfl, rfl⟩
  · intro code body h200 h304 h400 h404 h500 h503
    unfold http_handlers
    split
    · exact absurd rfl h200
    · exact absurd rfl h304
    · exact absurd rfl h400
    · exact absurd rfl h404
    · exact absurd rfl h500
    · exact absurd rfl h503
    · rfl

/-- Witness for C6 at the spec's concrete tests: a 404 stub raises
`NotFound` after one transport invocation, a 503 stub raises
`ServiceUnavailable`, and a 304 stub returns the content-not-changed
value. -/
theorem C6_status_mapping_witness :
    ((Client.request defaultConfig (fun _ _ => .status 404 7) 1
        [.str "GET", .str "u"] [] ⟨[], false, 0, 0, []⟩).1 = .error (.notFound 7) ∧
      (Client.request defaultConfig (fun _ _ => .status 404 7) 1
        [.str "GET", .str "u"] [] ⟨[], false, 0, 0, []⟩).2.calls = 0 + 1) ∧
    (Client.request defaultConfig (fun _ _ => .status 503 8) 1
        [.str "GET", .str "u"] [] ⟨[], false, 0, 0, []⟩).1 = .error (.serviceUnavailable 8) ∧
    (Client.request defaultConfig (fun _ _ => .status 304 9) 1
        [.str "GET", .str "u"] [] ⟨[], false, 0, 0, []⟩).1 = .ok (.cnc 9) :=
  ⟨C6_status_mapping.1 0 defaultConfig (fun _ _ => .status 404 7)
      [.str "GET", .str "u"] [] ⟨[], false, 0, 0, []⟩ 404 7 (.notFound 7)
      (fun _ _ => rfl) rfl (by decide) rfl,
    (C6_status_mapping.1 0 defaultConfig (fun _ _ => .status 503 8)
      [.str "GET", .str "u"] [] ⟨[], false, 0, 0, []⟩ 503 8 (.serviceUnavailable 8)
      (fun _ _ => rfl) rfl (by decide) rfl).1,
    (C6_status_mapping.2.1 0 defaultConfig (fun _ _ => .status 304 9)
      [.str "GET", .str "u"] [] ⟨[], false, 0, 0, []⟩ 9
      (fun _ _ => rfl) rfl (by decide)).1⟩

end Garlic
